import Mathlib

/-!
# Verification of the MOTLY core (malloydata/motly)

A shallow embedding, in Lean 4, of the MOTLY configuration-language engine:
the document tree (`src/tree.rs`), the statement IR (`src/ast.rs`), the
statement interpreter (`src/interpreter.rs`), the reference validator and
schema validator (`src/validate.rs`), the JSON writer (`src/json.rs`), the
JSON reader (`src/from_json.rs`) and the MOTLY parser (`src/parser.rs`),
together with theorems settling the specification claims about them.

Modelling conventions:
* Rust `BTreeMap<String, V>` becomes a list of pairs kept sorted by the
  lexicographic order on `String` (Lean's `<` on `String` is lexicographic
  on code points, which agrees with Rust's byte order on UTF-8 strings);
  `btInsert` mirrors `BTreeMap::insert` (replace on equal key, otherwise
  insert in order) and `btGet` mirrors `BTreeMap::get`.
* Rust `f64` number payloads are modelled by `Rat`.  No claim under
  verification computes with a number: the interpreter and the validators
  carry numbers around unchanged, and the JSON round-trip claim is
  restricted to integral numbers of magnitude below `2^53`, the range in
  which `f64` arithmetic and formatting are exact.  Floating-point
  rounding and `f64` `Display` formatting of non-integral values are
  outside the embedding.
* In-place mutation becomes explicit state passing: an operation on a
  subtree returns the updated subtree, and the caller writes it back at
  the same key, which is observationally the mutation the Rust performs.
* `Vec<MOTLYError>` accumulation becomes returned error lists, appended
  in the order the Rust pushes them.
-/

namespace Motly

/-! ## Source positions and errors (`src/error.rs`) -/

/-- A 0-based position in the source text (`error.rs::Position`).
`line` and `column` are 0-based; `offset` is the byte offset. -/
structure Position where
  line : Nat
  column : Nat
  offset : Nat
deriving Repr

/-- A parse / interpreter error (`error.rs::MOTLYError`).  The Rust field
`end` is called `endPos` here because `end` is a Lean keyword. -/
structure MOTLYError where
  code : String
  message : String
  begin : Position
  endPos : Position
deriving Repr

/-- `Position { line: 0, column: 0, offset: 0 }`, the zero position used
by the interpreter for its non-fatal errors. -/
def zeroPos : Position := ⟨0, 0, 0⟩

/-- `MOTLYError::syntax_error` (`error.rs`): an error with the fixed code
`tag-parse-syntax-error`. -/
def MOTLYError.syntax_error (message : String) (b e : Position) : MOTLYError :=
  ⟨"tag-parse-syntax-error", message, b, e⟩

/-! ## The document tree (`src/tree.rs`)

`validate.rs` and `from_json.rs` come from a bundled revision that names
the same data `MOTLYValue` (the node struct) and `MOTLYNode` (the enum
with `Value`/`Ref` variants); the two models are field-for-field the same
as `tree.rs`'s `MOTLYNode` / `MOTLYPropertyValue` and are embedded once,
under the `tree.rs` names. -/

/-- `tree.rs::Scalar`.  `Number` carries a `Rat` in place of `f64`
(see the module comment). -/
inductive Scalar where
  | String (s : String)
  | Number (n : Rat)
  | Boolean (b : Bool)
  | Date (d : String)
deriving Repr

mutual

/-- `tree.rs::EqValue`: the value slot of a node. -/
inductive EqValue where
  | Scalar (s : Scalar)
  | Array (elems : List MOTLYPropertyValue)
  | EnvRef (name : String)
deriving Repr

/-- `tree.rs::MOTLYPropertyValue`: a property (or array element) is a
node or a link reference. -/
inductive MOTLYPropertyValue where
  | Node (n : MOTLYNode)
  | Ref (linkTo : String)
deriving Repr

/-- `tree.rs::MOTLYNode`.  `properties` is the `BTreeMap` modelled as a
sorted association list (see the module comment). -/
inductive MOTLYNode where
  | mk (eq : Option EqValue) (properties : Option (List (String × MOTLYPropertyValue)))
      (deleted : Bool)
deriving Repr

end

/-- Projection for `MOTLYNode.eq`. -/
def MOTLYNode.eq : MOTLYNode → Option EqValue
  | .mk e _ _ => e

/-- Projection for `MOTLYNode.properties`. -/
def MOTLYNode.properties : MOTLYNode → Option (List (String × MOTLYPropertyValue))
  | .mk _ p _ => p

/-- Projection for `MOTLYNode.deleted`. -/
def MOTLYNode.deleted : MOTLYNode → Bool
  | .mk _ _ d => d

/-- `MOTLYNode::new()`: empty node. -/
def MOTLYNode.new : MOTLYNode := .mk none none false

/-- `MOTLYNode::deleted()`: a tombstone node. -/
def MOTLYNode.tombstone : MOTLYNode := .mk none none true

/-- `MOTLYPropertyValue::new_node()`. -/
def MOTLYPropertyValue.new_node : MOTLYPropertyValue := .Node MOTLYNode.new

/-- `MOTLYPropertyValue::ensure_node`: convert a `Ref` to an empty `Node`
(for intermediate path traversal), returning the inner node. -/
def MOTLYPropertyValue.ensure_node : MOTLYPropertyValue → MOTLYNode
  | .Node n => n
  | .Ref _ => MOTLYNode.new

/-- `BTreeMap::get` on the sorted association list: first (only) binding
of the key. -/
def btGet (m : List (String × MOTLYPropertyValue)) (k : String) :
    Option MOTLYPropertyValue :=
  match m with
  | [] => none
  | (k', v) :: rest => if k = k' then some v else btGet rest k

/-- `BTreeMap::insert` on the sorted association list: replace the value
on an equal key, otherwise insert keeping the keys in increasing order. -/
def btInsert (m : List (String × MOTLYPropertyValue)) (k : String)
    (v : MOTLYPropertyValue) : List (String × MOTLYPropertyValue) :=
  match m with
  | [] => [(k, v)]
  | (k', v') :: rest =>
    if k < k' then (k, v) :: (k', v') :: rest
    else if k = k' then (k, v) :: rest
    else (k', v') :: btInsert rest k v

/-- `MOTLYNode::get_or_create_properties`, read side: the property map,
`[]` when absent (the write side is modelled at each call site by
storing `some` of the updated map). -/
def MOTLYNode.props_or_empty (n : MOTLYNode) : List (String × MOTLYPropertyValue) :=
  n.properties.getD []

/-! ## The statement IR (`src/ast.rs`) -/

/-- `ast.rs::RefPathSegment`. -/
inductive RefPathSegment where
  | Name (name : String)
  | Index (idx : Nat)
deriving Repr

/-- `ast.rs::ScalarValue`.  `Number` carries the exact decimal value of
the literal as a `Rat` in place of `f64` (see the module comment). -/
inductive ScalarValue where
  | String (s : String)
  | Number (n : Rat)
  | Boolean (b : Bool)
  | Date (d : String)
  | Reference (ups : Nat) (path : List RefPathSegment)
  | None
  | Env (name : String)
deriving Repr

mutual

/-- `ast.rs::TagValue`. -/
inductive TagValue where
  | Scalar (sv : ScalarValue)
  | Array (elements : List ArrayElement)
deriving Repr

/-- `ast.rs::ArrayElement`. -/
inductive ArrayElement where
  | mk (value : Option TagValue) (properties : Option (List Statement))
deriving Repr

/-- `ast.rs::Statement`. -/
inductive Statement where
  | SetEq (path : List String) (value : TagValue) (properties : Option (List Statement))
  | AssignBoth (path : List String) (value : TagValue) (properties : Option (List Statement))
  | ReplaceProperties (path : List String) (properties : List Statement)
  | UpdateProperties (path : List String) (properties : List Statement)
  | Define (path : List String) (deleted : Bool)
  | ClearAll
deriving Repr

end

/-- Projection for `ArrayElement.value`. -/
def ArrayElement.value : ArrayElement → Option TagValue
  | .mk v _ => v

/-- Projection for `ArrayElement.properties`. -/
def ArrayElement.properties : ArrayElement → Option (List Statement)
  | .mk _ p => p

/-! ## The statement interpreter (`src/interpreter.rs`)

`build_access_path` returns a mutable reference to the parent of the last
path segment, creating empty nodes (and converting links) on the way;
callers then mutate that parent.  Functionally this is split into
`accessParent` (the node the reference would point at) and `writeBack`
(re-threading the updated parent into the tree along the same path, with
the same intermediate-node creation); composing them reproduces the
mutation. -/

/-- Descend `build_access_path`-style over the leading path segments:
get-or-create each property, converting a `Ref` into an empty node. -/
def accessParent (node : MOTLYNode) : List String → MOTLYNode
  | [] => node
  | seg :: rest =>
    accessParent ((btGet node.props_or_empty seg).getD MOTLYPropertyValue.new_node).ensure_node
      rest

/-- Write an updated parent node back along the leading path segments,
recreating the intermediate nodes `build_access_path` created. -/
def writeBack (node : MOTLYNode) : List String → MOTLYNode → MOTLYNode
  | [], parent => parent
  | seg :: rest, parent =>
    let props := node.props_or_empty
    let child := ((btGet props seg).getD MOTLYPropertyValue.new_node).ensure_node
    .mk node.eq (some (btInsert props seg (.Node (writeBack child rest parent)))) node.deleted

/-- `interpreter.rs::format_ref_string`, the loop over segments.
`first` tracks whether a name has been emitted yet (indices do not set
it, exactly as in the source). -/
def formatRefSegs : List RefPathSegment → Bool → String
  | [], _ => ""
  | .Name name :: rest, first =>
    (if first then name else "." ++ name) ++ formatRefSegs rest false
  | .Index idx :: rest, first =>
    "[" ++ toString idx ++ "]" ++ formatRefSegs rest first

/-- `interpreter.rs::format_ref_string`: `$`, `ups` carets, then the
dotted/indexed path. -/
def format_ref_string (ups : Nat) (path : List RefPathSegment) : String :=
  "$" ++ String.mk (List.replicate ups '^') ++ formatRefSegs path true

/-- `interpreter.rs::clone_error`: an `unresolved-clone-reference` error
at the zero position. -/
def clone_error (message : String) : MOTLYError :=
  ⟨"unresolved-clone-reference", message, zeroPos, zeroPos⟩

/-- The `ref-with-properties` error `execute_set_eq` /
`resolve_array_element` push when a reference value carries a
properties block. -/
def ref_with_properties_error : MOTLYError :=
  ⟨"ref-with-properties", "Cannot add properties to a reference. Did you mean := (clone)?",
    zeroPos, zeroPos⟩

/-- The context walk inside `resolve_and_clone` (the `for i in 0..len`
loop over the leading statement-path segments). -/
def resolveContext (root : MOTLYNode) (ref_str : String) : List String →
    Except MOTLYError MOTLYNode
  | [] => .ok root
  | seg :: rest =>
    match root.properties.bind (fun p => btGet p seg) with
    | some (.Node child) => resolveContext child ref_str rest
    | some (.Ref _) =>
      .error (clone_error ("Clone reference " ++ ref_str ++
        " could not be resolved: path segment \"" ++ seg ++ "\" is a link reference"))
    | none =>
      .error (clone_error ("Clone reference " ++ ref_str ++
        " could not be resolved: path segment \"" ++ seg ++ "\" not found"))

/-- The `for seg in ref_path` loop inside `resolve_and_clone`: follow the
reference segments from the start node. -/
def resolveSegs (node : MOTLYNode) (ref_str : String) : List RefPathSegment →
    Except MOTLYError MOTLYNode
  | [] => .ok node
  | .Name name :: rest =>
    match node.properties.bind (fun p => btGet p name) with
    | some (.Node child) => resolveSegs child ref_str rest
    | some (.Ref _) =>
      .error (clone_error ("Clone reference " ++ ref_str ++
        " could not be resolved: property \"" ++ name ++ "\" is a link reference"))
    | none =>
      .error (clone_error ("Clone reference " ++ ref_str ++
        " could not be resolved: property \"" ++ name ++ "\" not found"))
  | .Index idx :: rest =>
    match node.eq with
    | some (.Array arr) =>
      if h : idx < arr.length then
        match arr.get ⟨idx, h⟩ with
        | .Node child => resolveSegs child ref_str rest
        | .Ref _ =>
          .error (clone_error ("Clone reference " ++ ref_str ++
            " could not be resolved: index [" ++ toString idx ++ "] is a link reference"))
      else
        .error (clone_error ("Clone reference " ++ ref_str ++
          " could not be resolved: index [" ++ toString idx ++
          "] out of bounds (array length " ++ toString arr.length ++ ")"))
    | _ =>
      .error (clone_error ("Clone reference " ++ ref_str ++
        " could not be resolved: index [" ++ toString idx ++ "] used on non-array"))

/-- `interpreter.rs::resolve_and_clone`: resolve a reference in the tree
and return a deep clone of the target (deep copy is the value itself in
the functional model).  `ups == 0` starts at `root` — the node the
enclosing statement list executes against. -/
def resolve_and_clone (root : MOTLYNode) (stmt_path : List String) (ups : Nat)
    (ref_path : List RefPathSegment) : Except MOTLYError MOTLYNode :=
  let ref_str := format_ref_string ups ref_path
  if ups = 0 then
    resolveSegs root ref_str ref_path
  else
    -- `stmt_path.len().checked_sub(1 + ups)`
    if 1 + ups ≤ stmt_path.length then
      match resolveContext root ref_str (stmt_path.take (stmt_path.length - (1 + ups))) with
      | .ok start => resolveSegs start ref_str ref_path
      | .error e => .error e
    else
      .error (clone_error ("Clone reference " ++ ref_str ++ " goes " ++ toString ups ++
        " level(s) up but only " ++ toString (stmt_path.length - 1) ++ " ancestor(s) available"))

/-- The `for ch in chars` loop of `interpreter.rs::parse_ref_ups`:
count leading `^`s. -/
def parseUpsLoop : List Char → Nat
  | '^' :: rest => parseUpsLoop rest + 1
  | _ => 0

/-- `interpreter.rs::parse_ref_ups`: extract the ups count from a
`linkTo` string such as `$^^name`. -/
def parse_ref_ups (linkTo : String) : Nat :=
  match linkTo.data with
  | '$' :: rest => parseUpsLoop rest
  | _ => 0

mutual

/-- `interpreter.rs::sanitize_cloned_refs`: walk a cloned subtree and
replace relative references that escape the clone boundary. -/
def sanitize_cloned_refs : MOTLYNode → Nat → MOTLYNode × List MOTLYError
  | .mk eqv props del, depth =>
    let r1 : Option EqValue × List MOTLYError :=
      match eqv with
      | some (.Array arr) =>
        let r := sanitizeArr arr (depth + 1)
        (some (.Array r.1), r.2)
      | other => (other, [])
    let r2 : Option (List (String × MOTLYPropertyValue)) × List MOTLYError :=
      match props with
      | some ps =>
        let r := sanitizeProps ps (depth + 1)
        (some r.1, r.2)
      | none => (none, [])
    (.mk r1.1 r2.1 del, r1.2 ++ r2.2)

/-- The `for elem in arr` loop of `sanitize_cloned_refs`. -/
def sanitizeArr : List MOTLYPropertyValue → Nat →
    List MOTLYPropertyValue × List MOTLYError
  | [], _ => ([], [])
  | pv :: rest, depth =>
    let r1 := sanitize_cloned_pv pv depth
    let r2 := sanitizeArr rest depth
    (r1.1 :: r2.1, r1.2 ++ r2.2)

/-- The `for (_key, child) in props` loop of `sanitize_cloned_refs`
(iteration in map order, which is the sorted list order). -/
def sanitizeProps : List (String × MOTLYPropertyValue) → Nat →
    List (String × MOTLYPropertyValue) × List MOTLYError
  | [], _ => ([], [])
  | (k, pv) :: rest, depth =>
    let r1 := sanitize_cloned_pv pv depth
    let r2 := sanitizeProps rest depth
    ((k, r1.1) :: r2.1, r1.2 ++ r2.2)

/-- `interpreter.rs::sanitize_cloned_pv`: a `Ref` whose ups count is
positive and exceeds its depth is replaced by an empty node with a
`clone-reference-out-of-scope` error. -/
def sanitize_cloned_pv : MOTLYPropertyValue → Nat →
    MOTLYPropertyValue × List MOTLYError
  | .Ref linkTo, depth =>
    let parsed_ups := parse_ref_ups linkTo
    if 0 < parsed_ups ∧ depth < parsed_ups then
      (.Node MOTLYNode.new,
        [⟨"clone-reference-out-of-scope",
          "Cloned reference \"" ++ linkTo ++ "\" escapes the clone boundary (" ++
            toString parsed_ups ++ " level(s) up from depth " ++ toString depth ++ ")",
          zeroPos, zeroPos⟩])
    else (.Ref linkTo, [])
  | .Node n, depth =>
    let r := sanitize_cloned_refs n depth
    (.Node r.1, r.2)

end

/-- `interpreter.rs::execute_define`.  `-name` unconditionally inserts a
tombstone; `name` inserts an empty node only when the key is absent. -/
def execute_define (node : MOTLYNode) (path : List String) (deleted : Bool) : MOTLYNode :=
  match path.getLast? with
  | none => node  -- unreachable: the Rust asserts the path is non-empty
  | some key =>
    let pre := path.dropLast
    let parent := accessParent node pre
    let props := parent.props_or_empty
    let parent' :=
      if deleted then
        MOTLYNode.mk parent.eq (some (btInsert props key (.Node MOTLYNode.tombstone)))
          parent.deleted
      else
        match btGet props key with
        | some _ => MOTLYNode.mk parent.eq (some props) parent.deleted
        | none =>
          MOTLYNode.mk parent.eq (some (btInsert props key MOTLYPropertyValue.new_node))
            parent.deleted
    writeBack node pre parent'

mutual

/-- `interpreter.rs::execute`'s statement loop: fold the statements over
the node, concatenating errors in push order. -/
def execute_statements : List Statement → MOTLYNode → MOTLYNode × List MOTLYError
  | [], node => (node, [])
  | s :: rest, node =>
    let r1 := execute_statement s node
    let r2 := execute_statements rest r1.1
    (r2.1, r1.2 ++ r2.2)
termination_by l _ => 3 * sizeOf l
decreasing_by all_goals (simp_wf <;> omega)

/-- `interpreter.rs::execute_statement`. -/
def execute_statement : Statement → MOTLYNode → MOTLYNode × List MOTLYError
  | .SetEq path value properties, node => execute_set_eq node path value properties
  | .AssignBoth path value properties, node => execute_assign_both node path value properties
  | .ReplaceProperties path properties, node => execute_replace_properties node path properties
  | .UpdateProperties path properties, node => execute_update_properties node path properties
  | .Define path deleted, node => (execute_define node path deleted, [])
  | .ClearAll, node => (.mk none (some []) node.deleted, [])
termination_by s _ => 3 * sizeOf s + 2
decreasing_by all_goals (simp_wf <;> omega)

/-- `interpreter.rs::execute_set_eq`: `name = value`, with the reference
special case producing a `Ref` property (and a `ref-with-properties`
error when a block is also present). -/
def execute_set_eq : MOTLYNode → List String → TagValue → Option (List Statement) →
    MOTLYNode × List MOTLYError
  | node, path, .Scalar (.Reference ups ref_path), properties =>
    let ref_str := format_ref_string ups ref_path
    let errs0 := if properties.isSome then [ref_with_properties_error] else []
    (match path.getLast? with
    | none => (node, errs0)  -- unreachable: the Rust asserts the path is non-empty
    | some key =>
      let pre := path.dropLast
      let parent := accessParent node pre
      let parent' := MOTLYNode.mk parent.eq
        (some (btInsert parent.props_or_empty key (.Ref ref_str))) parent.deleted
      (writeBack node pre parent', errs0))
  | node, path, value, properties =>
    match path.getLast? with
    | none => (node, [])  -- unreachable: the Rust asserts the path is non-empty
    | some key =>
      let pre := path.dropLast
      let parent := accessParent node pre
      let props := parent.props_or_empty
      let target0 := ((btGet props key).getD MOTLYPropertyValue.new_node).ensure_node
      let r1 := set_eq_slot target0 value
      let r2 :=
        match properties with
        | some prop_stmts => execute_statements prop_stmts r1.1
        | none => (r1.1, ([] : List MOTLYError))
      let parent' := MOTLYNode.mk parent.eq (some (btInsert props key (.Node r2.1)))
        parent.deleted
      (writeBack node pre parent', r1.2 ++ r2.2)
termination_by _ _ value properties => 3 * (sizeOf value + sizeOf properties) + 1
decreasing_by all_goals (simp_wf <;> omega)

/-- `interpreter.rs::execute_assign_both`: `name := value`.  A reference
value is resolved against the pre-statement tree and deep-cloned; the
clone is sanitized, the optional block replaces its properties, and only
then is the access path built and the node inserted.  On resolution
failure the error alone is pushed and the tree is untouched. -/
def execute_assign_both : MOTLYNode → List String → TagValue → Option (List Statement) →
    MOTLYNode × List MOTLYError
  | node, path, .Scalar (.Reference ups ref_path), properties =>
    match resolve_and_clone node path ups ref_path with
    | .ok cloned =>
      let r1 := sanitize_cloned_refs cloned 0
      let r2 :=
        match properties with
        | some prop_stmts =>
          -- `cloned.properties = Some(BTreeMap::new())` before the block runs
          execute_statements prop_stmts (.mk r1.1.eq (some []) r1.1.deleted)
        | none => (r1.1, ([] : List MOTLYError))
      match path.getLast? with
      | none => (node, r1.2 ++ r2.2)  -- unreachable: the Rust asserts non-empty
      | some key =>
        let pre := path.dropLast
        let parent := accessParent node pre
        let parent' := MOTLYNode.mk parent.eq
          (some (btInsert parent.props_or_empty key (.Node r2.1))) parent.deleted
        (writeBack node pre parent', r1.2 ++ r2.2)
    | .error err => (node, [err])
  | node, path, value, properties =>
    let r1 := set_eq_slot MOTLYNode.new value
    let r2 :=
      match properties with
      | some prop_stmts => execute_statements prop_stmts r1.1
      | none => (r1.1, ([] : List MOTLYError))
    match path.getLast? with
    | none => (node, r1.2 ++ r2.2)  -- unreachable: the Rust asserts non-empty
    | some key =>
      let pre := path.dropLast
      let parent := accessParent node pre
      let parent' := MOTLYNode.mk parent.eq
        (some (btInsert parent.props_or_empty key (.Node r2.1))) parent.deleted
      (writeBack node pre parent', r1.2 ++ r2.2)
termination_by _ _ value properties => 3 * (sizeOf value + sizeOf properties) + 1
decreasing_by all_goals (simp_wf <;> omega)

/-- `interpreter.rs::execute_replace_properties`: keep the existing eq
(of a `Node` child), rebuild the properties from the block. -/
def execute_replace_properties (node : MOTLYNode) (path : List String)
    (properties : List Statement) : MOTLYNode × List MOTLYError :=
  match path.getLast? with
  | none => (node, [])  -- unreachable: the Rust asserts the path is non-empty
  | some key =>
    let pre := path.dropLast
    let parent := accessParent node pre
    let props := parent.props_or_empty
    let eq0 :=
      match btGet props key with
      | some (.Node existing) => existing.eq
      | _ => none
    let r := execute_statements properties (.mk eq0 none false)
    let parent' := MOTLYNode.mk parent.eq (some (btInsert props key (.Node r.1)))
      parent.deleted
    (writeBack node pre parent', r.2)
termination_by 3 * sizeOf properties + 1
decreasing_by all_goals (simp_wf <;> omega)

/-- `interpreter.rs::execute_update_properties`: get-or-create the target
node (converting a link) and run the block against it. -/
def execute_update_properties (node : MOTLYNode) (path : List String)
    (properties : List Statement) : MOTLYNode × List MOTLYError :=
  match path.getLast? with
  | none => (node, [])  -- unreachable: the Rust asserts the path is non-empty
  | some key =>
    let pre := path.dropLast
    let parent := accessParent node pre
    let props := parent.props_or_empty
    let target0 := ((btGet props key).getD MOTLYPropertyValue.new_node).ensure_node
    let r := execute_statements properties target0
    let parent' := MOTLYNode.mk parent.eq (some (btInsert props key (.Node r.1)))
      parent.deleted
    (writeBack node pre parent', r.2)
termination_by 3 * sizeOf properties + 1
decreasing_by all_goals (simp_wf <;> omega)

/-- `interpreter.rs::set_eq_slot`.  The `Reference` arm is
`unreachable!()` in the source (all callers guard); it is modelled as
the identity. -/
def set_eq_slot (target : MOTLYNode) (value : TagValue) : MOTLYNode × List MOTLYError :=
  match value with
  | .Array elements =>
    let r := resolve_array elements
    (.mk (some (.Array r.1)) target.properties target.deleted, r.2)
  | .Scalar sv =>
    match sv with
    | .String s => (.mk (some (.Scalar (.String s))) target.properties target.deleted, [])
    | .Number n => (.mk (some (.Scalar (.Number n))) target.properties target.deleted, [])
    | .Boolean b => (.mk (some (.Scalar (.Boolean b))) target.properties target.deleted, [])
    | .Date d => (.mk (some (.Scalar (.Date d))) target.properties target.deleted, [])
    | .Reference _ _ => (target, [])  -- unreachable!() in the source
    | .Env name => (.mk (some (.EnvRef name)) target.properties target.deleted, [])
    | .None => (.mk none target.properties target.deleted, [])
termination_by 3 * sizeOf value
decreasing_by all_goals (simp_wf <;> omega)

/-- `interpreter.rs::resolve_array`. -/
def resolve_array : List ArrayElement → List MOTLYPropertyValue × List MOTLYError
  | [] => ([], [])
  | el :: rest =>
    let r1 := resolve_array_element el
    let r2 := resolve_array rest
    (r1.1 :: r2.1, r1.2 ++ r2.2)
termination_by l => 3 * sizeOf l + 1
decreasing_by all_goals (simp_wf <;> omega)

/-- `interpreter.rs::resolve_array_element`: a reference element becomes
a `Ref` (with a `ref-with-properties` error if a block is attached);
otherwise a fresh node gets the value and the block. -/
def resolve_array_element : ArrayElement → MOTLYPropertyValue × List MOTLYError
  | .mk (some (.Scalar (.Reference ups path))) properties =>
    let ref_str := format_ref_string ups path
    let errs := if properties.isSome then [ref_with_properties_error] else []
    (.Ref ref_str, errs)
  | .mk (some v) properties =>
    let r1 := set_eq_slot MOTLYNode.new v
    let r2 :=
      match properties with
      | some stmts => execute_statements stmts r1.1
      | none => (r1.1, ([] : List MOTLYError))
    (.Node r2.1, r1.2 ++ r2.2)
  | .mk none properties =>
    let r2 :=
      match properties with
      | some stmts => execute_statements stmts MOTLYNode.new
      | none => (MOTLYNode.new, ([] : List MOTLYError))
    (.Node r2.1, r2.2)
termination_by el => 3 * sizeOf el
decreasing_by all_goals (simp_wf <;> omega)

end

/-- `interpreter.rs::execute`: fold a statement list into the root,
returning the updated root and the non-fatal errors. -/
def execute (statements : List Statement) (root : MOTLYNode) :
    MOTLYNode × List MOTLYError :=
  execute_statements statements root

/-! ## Observations used by the theorems -/

mutual

/-- The clone-boundary invariant on a node at depth `depth` inside a
clone: every `Ref` among its descendants, lying at property-value depth
`d` (direct children of the depth-`depth` node are at `d = depth + 1`),
has `parse_ref_ups ≤ d`. -/
def linksOkNode : MOTLYNode → Nat → Bool
  | .mk eqv props _, depth =>
    (match eqv with
     | some (.Array arr) => linksOkArr arr (depth + 1)
     | _ => true) &&
    (match props with
     | some ps => linksOkProps ps (depth + 1)
     | none => true)

/-- `linksOkNode`, over the elements of an eq array. -/
def linksOkArr : List MOTLYPropertyValue → Nat → Bool
  | [], _ => true
  | pv :: rest, depth => linksOkPV pv depth && linksOkArr rest depth

/-- `linksOkNode`, over the property map entries. -/
def linksOkProps : List (String × MOTLYPropertyValue) → Nat → Bool
  | [], _ => true
  | (_, pv) :: rest, depth => linksOkPV pv depth && linksOkProps rest depth

/-- `linksOkNode`, at a single property value of depth `depth`. -/
def linksOkPV : MOTLYPropertyValue → Nat → Bool
  | .Ref s, depth => decide (parse_ref_ups s ≤ depth)
  | .Node n, depth => linksOkNode n depth

end

/-- Read the property value at a dotted path, descending through `Node`
children only (the observation used to state what a statement wrote). -/
def readPV (node : MOTLYNode) : List String → Option MOTLYPropertyValue
  | [] => none
  | [k] => node.properties.bind (fun p => btGet p k)
  | k :: rest =>
    match node.properties.bind (fun p => btGet p k) with
    | some (.Node child) => readPV child rest
    | _ => none

/-! ## Map and path lemmas -/

/-- `BTreeMap::insert` followed by `get` of the same key returns the
inserted value. -/
theorem btGet_btInsert_self (m : List (String × MOTLYPropertyValue)) (k : String)
    (v : MOTLYPropertyValue) : btGet (btInsert m k v) k = some v := by
  induction m with
  | nil => simp [btInsert, btGet]
  | cons hd rest ih =>
    obtain ⟨k', v'⟩ := hd
    by_cases h1 : k < k'
    · simp [btInsert, btGet, h1]
    · by_cases h2 : k = k'
      · simp [btInsert, btGet, h1, h2]
      · simp [btInsert, btGet, h1, h2, ih]

/-- One step of `readPV` through a `Node` child on a non-final segment. -/
theorem readPV_cons_node (eqv : Option EqValue) (del : Bool)
    (props : List (String × MOTLYPropertyValue)) (k : String) (child : MOTLYNode)
    (p2 : List String) (h2 : p2 ≠ [])
    (hget : btGet props k = some (.Node child)) :
    readPV (.mk eqv (some props) del) (k :: p2) = readPV child p2 := by
  cases p2 with
  | nil => exact absurd rfl h2
  | cons a l => simp [readPV, MOTLYNode.properties, hget]

/-- Reading back through `writeBack` along the written path reaches the
written parent's map. -/
theorem readPV_writeBack (pre : List String) (node parent : MOTLYNode) (key : String) :
    readPV (writeBack node pre parent) (pre ++ [key]) =
      parent.properties.bind (fun p => btGet p key) := by
  induction pre generalizing node with
  | nil => simp [writeBack, readPV]
  | cons seg rest ih =>
    have hW : writeBack node (seg :: rest) parent =
        .mk node.eq (some (btInsert node.props_or_empty seg
          (.Node (writeBack
            ((btGet node.props_or_empty seg).getD MOTLYPropertyValue.new_node).ensure_node
            rest parent)))) node.deleted := by
      simp [writeBack]
    rw [List.cons_append, hW,
      readPV_cons_node _ _ _ _ _ _ (by simp) (btGet_btInsert_self _ _ _)]
    exact ih _

/-- Every failure of the clone-context walk carries the
`unresolved-clone-reference` code. -/
theorem resolveContext_error_code (root : MOTLYNode) (ref_str : String)
    (segs : List String) (e : MOTLYError)
    (h : resolveContext root ref_str segs = .error e) :
    e.code = "unresolved-clone-reference" := by
  induction segs generalizing root with
  | nil => simp [resolveContext] at h
  | cons seg rest ih =>
    simp only [resolveContext] at h
    cases hg : root.properties.bind (fun p => btGet p seg) with
    | none =>
      rw [hg] at h
      cases h
      rfl
    | some pv =>
      rw [hg] at h
      cases pv with
      | Node child => exact ih child h
      | Ref s =>
        cases h
        rfl

/-- Every failure of the reference-segment walk carries the
`unresolved-clone-reference` code. -/
theorem resolveSegs_error_code (node : MOTLYNode) (ref_str : String)
    (segs : List RefPathSegment) (e : MOTLYError)
    (h : resolveSegs node ref_str segs = .error e) :
    e.code = "unresolved-clone-reference" := by
  induction segs generalizing node with
  | nil => simp [resolveSegs] at h
  | cons seg rest ih =>
    cases seg with
    | Name name =>
      simp only [resolveSegs] at h
      cases hg : node.properties.bind (fun p => btGet p name) with
      | none =>
        rw [hg] at h
        cases h
        rfl
      | some pv =>
        rw [hg] at h
        cases pv with
        | Node child => exact ih child h
        | Ref s =>
          cases h
          rfl
    | Index idx =>
      simp only [resolveSegs] at h
      cases he : node.eq with
      | none =>
        rw [he] at h
        cases h
        rfl
      | some ev =>
        rw [he] at h
        cases ev with
        | Scalar s =>
          cases h
          rfl
        | EnvRef n =>
          cases h
          rfl
        | Array arr =>
          by_cases hlt : idx < arr.length
          · simp only [hlt, dite_true] at h
            cases harr : arr.get ⟨idx, hlt⟩ with
            | Node child =>
              rw [harr] at h
              exact ih child h
            | Ref s =>
              rw [harr] at h
              cases h
              rfl
          · simp only [hlt, dite_false] at h
            cases h
            rfl

/-- Every failure of `resolve_and_clone` carries the
`unresolved-clone-reference` code (it is built by `clone_error`). -/
theorem resolve_and_clone_error_code (root : MOTLYNode) (stmt_path : List String)
    (ups : Nat) (ref_path : List RefPathSegment) (e : MOTLYError)
    (h : resolve_and_clone root stmt_path ups ref_path = .error e) :
    e.code = "unresolved-clone-reference" := by
  unfold resolve_and_clone at h
  by_cases h0 : ups = 0
  · simp only [h0, if_true] at h
    exact resolveSegs_error_code _ _ _ _ h
  · simp only [h0, if_false] at h
    by_cases h1 : 1 + ups ≤ stmt_path.length
    · simp only [h1, if_true] at h
      cases hc : resolveContext root (format_ref_string ups ref_path)
          (stmt_path.take (stmt_path.length - (1 + ups))) with
      | ok start =>
        rw [hc] at h
        exact resolveSegs_error_code _ _ _ _ h
      | error e' =>
        rw [hc] at h
        cases h
        exact resolveContext_error_code _ _ _ _ hc
    · simp only [h1, if_false] at h
      cases h
      rfl

/-! ## Sanitization establishes the clone-boundary invariant -/

mutual

/-- After `sanitize_cloned_refs` at depth `d`, every remaining link of
the subtree satisfies the clone-boundary bound. -/
theorem linksOk_sanitize_node : ∀ (n : MOTLYNode) (d : Nat),
    linksOkNode (sanitize_cloned_refs n d).1 d = true
  | .mk eqv props del, d => by
    cases eqv with
    | none =>
      cases props with
      | none => simp [sanitize_cloned_refs, linksOkNode]
      | some ps =>
        simp [sanitize_cloned_refs, linksOkNode, linksOk_sanitize_props ps (d + 1)]
    | some ev =>
      cases ev with
      | Scalar s =>
        cases props with
        | none => simp [sanitize_cloned_refs, linksOkNode]
        | some ps =>
          simp [sanitize_cloned_refs, linksOkNode, linksOk_sanitize_props ps (d + 1)]
      | EnvRef name =>
        cases props with
        | none => simp [sanitize_cloned_refs, linksOkNode]
        | some ps =>
          simp [sanitize_cloned_refs, linksOkNode, linksOk_sanitize_props ps (d + 1)]
      | Array arr =>
        cases props with
        | none =>
          simp [sanitize_cloned_refs, linksOkNode, linksOk_sanitize_arr arr (d + 1)]
        | some ps =>
          simp [sanitize_cloned_refs, linksOkNode, linksOk_sanitize_arr arr (d + 1),
            linksOk_sanitize_props ps (d + 1)]

/-- `linksOk_sanitize_node`, for eq-array elements. -/
theorem linksOk_sanitize_arr : ∀ (l : List MOTLYPropertyValue) (d : Nat),
    linksOkArr (sanitizeArr l d).1 d = true
  | [], d => by simp [sanitizeArr, linksOkArr]
  | pv :: rest, d => by
    simp [sanitizeArr, linksOkArr, linksOk_sanitize_pv pv d, linksOk_sanitize_arr rest d]

/-- `linksOk_sanitize_node`, for property-map entries. -/
theorem linksOk_sanitize_props : ∀ (l : List (String × MOTLYPropertyValue)) (d : Nat),
    linksOkProps (sanitizeProps l d).1 d = true
  | [], d => by simp [sanitizeProps, linksOkProps]
  | (k, pv) :: rest, d => by
    simp [sanitizeProps, linksOkProps, linksOk_sanitize_pv pv d,
      linksOk_sanitize_props rest d]

/-- `linksOk_sanitize_node`, at a single property value. -/
theorem linksOk_sanitize_pv : ∀ (pv : MOTLYPropertyValue) (d : Nat),
    linksOkPV (sanitize_cloned_pv pv d).1 d = true
  | .Ref s, d => by
    by_cases h : 0 < parse_ref_ups s ∧ d < parse_ref_ups s
    · simp [sanitize_cloned_pv, h, linksOkPV, linksOkNode, MOTLYNode.new]
    · have hle : parse_ref_ups s ≤ d := by omega
      simp [sanitize_cloned_pv, h, linksOkPV, hle]
  | .Node n, d => by
    simp [sanitize_cloned_pv, linksOkPV, linksOk_sanitize_node n d]

end

/-! ## Shape of a successful clone assignment -/

/-- A successful `name := $ref` with no properties block: the sanitized
clone is inserted at the write key of the parent reached by the access
path, and the sanitizer's errors are the statement's errors. -/
theorem execute_assign_both_ok_none (root : MOTLYNode) (pre : List String) (key : String)
    (ups : Nat) (ref_path : List RefPathSegment) (c : MOTLYNode)
    (hres : resolve_and_clone root (pre ++ [key]) ups ref_path = .ok c) :
    execute_assign_both root (pre ++ [key]) (.Scalar (.Reference ups ref_path)) none =
      (writeBack root pre
        (.mk (accessParent root pre).eq
          (some (btInsert (accessParent root pre).props_or_empty
            key (.Node (sanitize_cloned_refs c 0).1)))
          (accessParent root pre).deleted),
       (sanitize_cloned_refs c 0).2) := by
  simp [execute_assign_both, hres, List.getLast?_concat, List.dropLast_concat]

/-! ## Claim theorems -/

/-- C1 (amended): for an ASSIGN-BOTH statement `name := $ref` WITHOUT an
accompanying properties block, when the reference resolves, the subtree
inserted at the write key is the sanitized clone, and every Link in it
satisfies `ups ≤ depth` within the inserted subtree (depth 0 = the root
of the clone; a Link directly under the root is at depth 1).  Links
whose ups exceed their depth were replaced by empty nodes during
sanitization.  (With a `{S*}` block the guarantee covers only the clone
before property replacement: the block's own statements can insert
unsanitized links — see the counterexample.) -/
theorem C1_clone_boundary (root : MOTLYNode) (path : List String) (ups : Nat)
    (ref_path : List RefPathSegment) (c : MOTLYNode) (hne : path ≠ [])
    (hres : resolve_and_clone root path ups ref_path = .ok c) :
    readPV (execute_assign_both root path (.Scalar (.Reference ups ref_path)) none).1 path
      = some (.Node (sanitize_cloned_refs c 0).1) ∧
    linksOkNode (sanitize_cloned_refs c 0).1 0 = true := by
  obtain ⟨pre, key, hpk⟩ : ∃ pre key, path = pre ++ [key] :=
    ⟨path.dropLast, path.getLast hne, (List.dropLast_append_getLast hne).symm⟩
  subst hpk
  constructor
  · rw [execute_assign_both_ok_none root pre key ups ref_path c hres, readPV_writeBack]
    simp [MOTLYNode.properties, btGet_btInsert_self]
  · exact linksOk_sanitize_node c 0

/-- Witness for C1 at a concrete input: cloning `$src` into `x` on a
tree holding `src`. -/
theorem C1_clone_boundary_witness :
    ((["x"] : List String) ≠ [] ∧
      resolve_and_clone
        (.mk none (some [("src", .Node (.mk (some (.Scalar (.String "s"))) none false))])
          false)
        ["x"] 0 [.Name "src"] = .ok (.mk (some (.Scalar (.String "s"))) none false)) ∧
    (readPV (execute_assign_both
        (.mk none (some [("src", .Node (.mk (some (.Scalar (.String "s"))) none false))])
          false)
        ["x"] (.Scalar (.Reference 0 [.Name "src"])) none).1 ["x"]
      = some (.Node
          (sanitize_cloned_refs (.mk (some (.Scalar (.String "s"))) none false) 0).1) ∧
    linksOkNode
      (sanitize_cloned_refs (.mk (some (.Scalar (.String "s"))) none false) 0).1 0 = true) :=
  ⟨⟨by simp, by rfl⟩,
    C1_clone_boundary _ ["x"] 0 [.Name "src"] _ (by simp) (by rfl)⟩

/-- Counterexample to C1 as stated (which covers ASSIGN-BOTH "with or
without an accompanying `{S*}` properties block"): executing
`src = s  x := $src { b = $^^w }` inserts at `x` a subtree whose
property `b` is the Link `$^^w`, a Link at depth 1 with ups count 2 —
its ups exceed its depth and it was not replaced. -/
theorem C1_counterexample :
    readPV (execute [.SetEq ["src"] (.Scalar (.String "s")) none,
        .AssignBoth ["x"] (.Scalar (.Reference 0 [.Name "src"]))
          (some [.SetEq ["b"] (.Scalar (.Reference 2 [.Name "w"])) none])]
      MOTLYNode.new).1 ["x", "b"] = some (.Ref "$^^w") ∧
    parse_ref_ups "$^^w" = 2 := by
  have hfmt : format_ref_string 2 [.Name "w"] = "$^^w" := rfl
  have h : execute [.SetEq ["src"] (.Scalar (.String "s")) none,
        .AssignBoth ["x"] (.Scalar (.Reference 0 [.Name "src"]))
          (some [.SetEq ["b"] (.Scalar (.Reference 2 [.Name "w"])) none])]
      MOTLYNode.new =
      (.mk none (some [("src", .Node (.mk (some (.Scalar (.String "s"))) none false)),
        ("x", .Node (.mk (some (.Scalar (.String "s")))
          (some [("b", .Ref (format_ref_string 2 [.Name "w"]))]) false))]) false, []) := by
    simp [execute, execute_statements, execute_statement, execute_set_eq,
      execute_assign_both, resolve_and_clone, resolveSegs,
      sanitize_cloned_refs, sanitizeProps, sanitizeArr, sanitize_cloned_pv,
      accessParent, writeBack, btInsert, btGet, MOTLYNode.new,
      MOTLYNode.props_or_empty, MOTLYNode.properties, MOTLYNode.eq, MOTLYNode.deleted,
      MOTLYPropertyValue.new_node, MOTLYPropertyValue.ensure_node, set_eq_slot]
    all_goals decide
  rw [hfmt] at h
  rw [h]
  exact ⟨by simp [readPV, btGet, MOTLYNode.properties], by rfl⟩

/-- C4 (confirmed): when the reference of `name := $ref` cannot be
resolved, exactly one error is pushed, it carries the code
`unresolved-clone-reference`, and the tree is returned unchanged — no
node is created at the write key and no intermediate path nodes are
created (the access path is never built in the failure branch). -/
theorem C4_failed_clone_atomic (root : MOTLYNode) (path : List String) (ups : Nat)
    (ref_path : List RefPathSegment) (properties : Option (List Statement))
    (e : MOTLYError)
    (hres : resolve_and_clone root path ups ref_path = .error e) :
    execute_assign_both root path (.Scalar (.Reference ups ref_path)) properties
      = (root, [e]) ∧
    e.code = "unresolved-clone-reference" := by
  refine ⟨?_, resolve_and_clone_error_code _ _ _ _ _ hres⟩
  simp [execute_assign_both, hres]

/-- Witness for C4 at the spec's own scenario `x := $missing` on an
empty root. -/
theorem C4_failed_clone_atomic_witness :
    resolve_and_clone MOTLYNode.new ["x"] 0 [.Name "missing"]
      = .error (clone_error
          "Clone reference $missing could not be resolved: property \"missing\" not found") ∧
    (execute_assign_both MOTLYNode.new ["x"] (.Scalar (.Reference 0 [.Name "missing"])) none
      = (MOTLYNode.new,
          [clone_error
            "Clone reference $missing could not be resolved: property \"missing\" not found"]) ∧
    (clone_error
      "Clone reference $missing could not be resolved: property \"missing\" not found").code
        = "unresolved-clone-reference") :=
  ⟨by rfl, C4_failed_clone_atomic _ ["x"] 0 [.Name "missing"] none _ (by rfl)⟩

/-- C10 (confirmed): an ASSIGN-BOTH `name := $ref` resolves and
deep-copies the referent from the tree as it is BEFORE the statement
writes anything (`resolve_and_clone` receives the untouched root), so a
reference that overlaps the statement's own write path still succeeds,
and — when the clone needs no sanitization — the inserted subtree equals
the pre-statement referent exactly, with no errors. -/
theorem C10_clone_prestate (root : MOTLYNode) (path : List String) (ups : Nat)
    (ref_path : List RefPathSegment) (c : MOTLYNode) (hne : path ≠ [])
    (hres : resolve_and_clone root path ups ref_path = .ok c)
    (hsan : sanitize_cloned_refs c 0 = (c, [])) :
    (execute_assign_both root path (.Scalar (.Reference ups ref_path)) none).2 = [] ∧
    readPV (execute_assign_both root path (.Scalar (.Reference ups ref_path)) none).1 path
      = some (.Node c) := by
  obtain ⟨pre, key, hpk⟩ : ∃ pre key, path = pre ++ [key] :=
    ⟨path.dropLast, path.getLast hne, (List.dropLast_append_getLast hne).symm⟩
  subst hpk
  have h := execute_assign_both_ok_none root pre key ups ref_path c hres
  rw [hsan] at h
  constructor
  · rw [h]
  · rw [h, readPV_writeBack]
    simp [MOTLYNode.properties, btGet_btInsert_self]

/-- Witness for C10 at the overlapping input `x := $x.y` on a tree where
`x.y` is a node: the statement succeeds and `x` becomes the
pre-statement `x.y`. -/
theorem C10_clone_prestate_witness :
    ((["x"] : List String) ≠ [] ∧
      resolve_and_clone
        (.mk none (some [("x", .Node (.mk none
          (some [("y", .Node (.mk (some (.Scalar (.String "v"))) none false))]) false))])
          false)
        ["x"] 0 [.Name "x", .Name "y"]
        = .ok (.mk (some (.Scalar (.String "v"))) none false) ∧
      sanitize_cloned_refs (.mk (some (.Scalar (.String "v"))) none false) 0
        = (.mk (some (.Scalar (.String "v"))) none false, [])) ∧
    ((execute_assign_both
        (.mk none (some [("x", .Node (.mk none
          (some [("y", .Node (.mk (some (.Scalar (.String "v"))) none false))]) false))])
          false)
        ["x"] (.Scalar (.Reference 0 [.Name "x", .Name "y"])) none).2 = [] ∧
    readPV (execute_assign_both
        (.mk none (some [("x", .Node (.mk none
          (some [("y", .Node (.mk (some (.Scalar (.String "v"))) none false))]) false))])
          false)
        ["x"] (.Scalar (.Reference 0 [.Name "x", .Name "y"])) none).1 ["x"]
      = some (.Node (.mk (some (.Scalar (.String "v"))) none false))) :=
  ⟨⟨by simp, by rfl, by simp [sanitize_cloned_refs]⟩,
    C10_clone_prestate _ ["x"] 0 [.Name "x", .Name "y"] _ (by simp) (by rfl)
      (by simp [sanitize_cloned_refs])⟩

/-- C2 (amended): clone resolution of an `ups == 0` reference starts at
the node the statement list is being executed against — the document
root for top-level statements, but the enclosing block's target node for
a statement nested inside a property block `{ ... }`.  Concretely,
executing `k { b := $segs }` against `root` behaves exactly as executing
`b := $segs` against the child node `target` at `k` (same errors, and
the updated `k` subtree is that target-level result), and an `ups == 0`
resolution is `resolveSegs` from that node itself. -/
theorem C2_nested_clone_context (root target : MOTLYNode) (k b : String)
    (segs : List RefPathSegment) (props0 : List (String × MOTLYPropertyValue))
    (hp : root.properties = some props0)
    (hk : btGet props0 k = some (.Node target)) :
    (execute_statement (.UpdateProperties [k]
        [.AssignBoth [b] (.Scalar (.Reference 0 segs)) none]) root).2 =
      (execute_assign_both target [b] (.Scalar (.Reference 0 segs)) none).2 ∧
    readPV (execute_statement (.UpdateProperties [k]
        [.AssignBoth [b] (.Scalar (.Reference 0 segs)) none]) root).1 [k] =
      some (.Node (execute_assign_both target [b] (.Scalar (.Reference 0 segs)) none).1) ∧
    resolve_and_clone target [b] 0 segs
      = resolveSegs target (format_ref_string 0 segs) segs := by
  obtain ⟨eq0, oprops, del0⟩ := root
  simp only [MOTLYNode.properties] at hp
  subst hp
  refine ⟨?_, ?_, by simp [resolve_and_clone]⟩ <;>
    simp [execute_statement, execute_update_properties, execute_statements, accessParent,
      MOTLYNode.props_or_empty, hk, MOTLYPropertyValue.ensure_node, writeBack,
      readPV, MOTLYNode.properties, btGet_btInsert_self]

/-- Witness for C2 at a concrete nested statement `a { b := $c }`. -/
theorem C2_nested_clone_context_witness :
    ((MOTLYNode.mk none (some [("a", .Node (.mk none none false))]) false).properties
        = some [("a", .Node (.mk none none false))] ∧
      btGet [("a", .Node (.mk none none false))] "a" = some (.Node (.mk none none false))) ∧
    ((execute_statement (.UpdateProperties ["a"]
        [.AssignBoth ["b"] (.Scalar (.Reference 0 [.Name "c"])) none])
        (MOTLYNode.mk none (some [("a", .Node (.mk none none false))]) false)).2 =
      (execute_assign_both (.mk none none false) ["b"]
        (.Scalar (.Reference 0 [.Name "c"])) none).2 ∧
    readPV (execute_statement (.UpdateProperties ["a"]
        [.AssignBoth ["b"] (.Scalar (.Reference 0 [.Name "c"])) none])
        (MOTLYNode.mk none (some [("a", .Node (.mk none none false))]) false)).1 ["a"] =
      some (.Node (execute_assign_both (.mk none none false) ["b"]
        (.Scalar (.Reference 0 [.Name "c"])) none).1) ∧
    resolve_and_clone (.mk none none false) ["b"] 0 [.Name "c"]
      = resolveSegs (.mk none none false) (format_ref_string 0 [.Name "c"]) [.Name "c"]) :=
  ⟨⟨by rfl, by rfl⟩,
    C2_nested_clone_context _ _ "a" "b" [.Name "c"] _ (by rfl) (by rfl)⟩

/-- Counterexample to C2 as stated: in `c = hi  a { b := $c }` the nested
`b := $c` has ups 0, yet resolution does NOT start at the document root
(where `c` exists): it starts at node `a`, fails with one
`unresolved-clone-reference`, and no node is created at `a.b`. -/
theorem C2_counterexample :
    readPV (execute [.SetEq ["c"] (.Scalar (.String "hi")) none,
        .UpdateProperties ["a"]
          [.AssignBoth ["b"] (.Scalar (.Reference 0 [.Name "c"])) none]]
      MOTLYNode.new).1 ["a", "b"] = none ∧
    readPV (execute [.SetEq ["c"] (.Scalar (.String "hi")) none,
        .UpdateProperties ["a"]
          [.AssignBoth ["b"] (.Scalar (.Reference 0 [.Name "c"])) none]]
      MOTLYNode.new).1 ["c"]
      = some (.Node (.mk (some (.Scalar (.String "hi"))) none false)) ∧
    (execute [.SetEq ["c"] (.Scalar (.String "hi")) none,
        .UpdateProperties ["a"]
          [.AssignBoth ["b"] (.Scalar (.Reference 0 [.Name "c"])) none]]
      MOTLYNode.new).2
      = [clone_error
          "Clone reference $c could not be resolved: property \"c\" not found"] := by
  have hmsg : "Clone reference " ++ format_ref_string 0 [.Name "c"] ++
      " could not be resolved: property \"" ++ "c" ++ "\" not found" =
      "Clone reference $c could not be resolved: property \"c\" not found" := rfl
  have h : execute [.SetEq ["c"] (.Scalar (.String "hi")) none,
        .UpdateProperties ["a"]
          [.AssignBoth ["b"] (.Scalar (.Reference 0 [.Name "c"])) none]]
      MOTLYNode.new =
      (.mk none (some [("a", .Node (.mk none none false)),
        ("c", .Node (.mk (some (.Scalar (.String "hi"))) none false))]) false,
       [clone_error ("Clone reference " ++ format_ref_string 0 [.Name "c"] ++
          " could not be resolved: property \"" ++ "c" ++ "\" not found")]) := by
    simp [execute, execute_statements, execute_statement, execute_set_eq,
      execute_update_properties, execute_assign_both, resolve_and_clone, resolveSegs,
      accessParent, writeBack, btInsert, btGet, MOTLYNode.new,
      MOTLYNode.props_or_empty, MOTLYNode.properties, MOTLYNode.eq, MOTLYNode.deleted,
      MOTLYPropertyValue.new_node, MOTLYPropertyValue.ensure_node, set_eq_slot]
    all_goals decide
  rw [hmsg] at h
  rw [h]
  refine ⟨by simp [readPV, btGet, MOTLYNode.properties], ?_, by rfl⟩
  simp [readPV, btGet, MOTLYNode.properties]

end Motly
